import Mathlib

/-!
Shallow embedding of the dbtester repository core (coreos/dbtester):
the controller benchmark driver (`control` package, file `control.go`)
and the agent process supervisor (`agent/agent.go`).
-/

namespace Dbtester

/-- The validated, closed set of supported backends
("etcdv2" | "etcdv3" | "zk"/"zookeeper" | "consul", from `CommandFunc`). -/
inductive Database
  | etcdv2
  | etcdv3
  | zookeeper
  | consul
deriving DecidableEq

/-- The fields of `cfg.Step2` read by the benchmark code under `src`. -/
structure Step2Config where
  benchType : String
  totalRequests : Nat
  clients : Nat
  connections : Nat
  keySize : Nat
  valueSize : Nat
  sameKeyMode : Bool
  localRead : Bool
  etcdv3CompactionCycle : Nat
  requestIntervalMs : Nat
deriving DecidableEq

/-- The run configuration fields used by `step2` and the broadcast path. -/
structure Config where
  database : Database
  peerIPs : List String
  agentPort : Nat
  databasePort : Nat
  step2 : Step2Config
deriving DecidableEq

/-- The prebuilt value corpus (`values` struct from `newValues`):
`sampleSize = len(strings)`, values are drawn round-robin by `i % sampleSize`. -/
structure Values where
  strs : List String
  sampleSize : Nat
deriving DecidableEq

/-- Decimal digit character, `0`-`9`. -/
def decChar (d : Nat) : Char :=
  match d with
  | 0 => '0'
  | 1 => '1'
  | 2 => '2'
  | 3 => '3'
  | 4 => '4'
  | 5 => '5'
  | 6 => '6'
  | 7 => '7'
  | 8 => '8'
  | _ => '9'

/-- Numeric value of a digit character. -/
def digitVal (c : Char) : Nat := c.toNat - 48

/-- Big-endian decimal digit characters of `n` (empty for `n = 0`),
computed with explicit fuel so that it reduces by evaluation. -/
def decDigitsGo : Nat → Nat → List Char
  | _, 0 => []
  | n, fuel + 1 => if n = 0 then [] else decDigitsGo (n / 10) fuel ++ [decChar (n % 10)]

/-- Decimal representation of `n`, as Go fmt prints it (so `0` is `"0"`). -/
def decimalDigits (n : Nat) : List Char :=
  if n = 0 then [decChar 0] else decDigitsGo n n

/-- Numeric value of a big-endian decimal digit string. -/
def ofDigitsChars (l : List Char) : Nat :=
  l.foldl (fun a c => 10 * a + digitVal c) 0

/-- Modelled from the spec: `sequentialKey` lives in a repository file that is
not under `src`; per the spec it is "a zero-padded sequential key derived from
the operation index and a configured key width". -/
def sequentialKey (size i : Nat) : String :=
  String.mk (List.replicate (size - (decimalDigits i).length) (decChar 0) ++ decimalDigits i)

/-- Modelled from the spec: `sameKey` lives in a repository file that is not
under `src`; per the spec it is "a single fixed key" of the configured key
size, identical across all operations. -/
def sameKey (size : Nat) : String :=
  String.mk (List.replicate size 'a')

/-- The benchmark `request` union from the control package: exactly one
per-backend payload is populated per operation, selected by the backend. -/
inductive Req
  | etcdv2Op (key : String) (value : String)
  | etcdv3Put (key : String) (value : String)
  | etcdv3Get (key : String) (serializable : Bool)
  | zkOp (key : String) (value : String)
  | consulOp (key : String) (value : String)
deriving DecidableEq

/-- The key computed for write operation index `i` in `generateWrites`
(control.go lines 533-536): the sequential key, overridden by the fixed key
when same-key mode is on. -/
def writeKey (cfg : Config) (i : Nat) : String :=
  if cfg.step2.sameKeyMode then sameKey cfg.step2.keySize else sequentialKey cfg.step2.keySize i

/-- Value strings are drawn round-robin from the corpus by `i % sampleSize`. -/
def writeValue (vals : Values) (i : Nat) : String :=
  vals.strs.getD (i % vals.sampleSize) ""

/-- The request sent for write operation index `i` in `generateWrites`:
one payload per backend; ZooKeeper keys are prefixed with a slash. -/
def writeRequest (cfg : Config) (vals : Values) (i : Nat) : Req :=
  let k := writeKey cfg i
  let vs := writeValue vals i
  match cfg.database with
  | Database.etcdv2 => Req.etcdv2Op k vs
  | Database.etcdv3 => Req.etcdv3Put k vs
  | Database.zookeeper => Req.zkOp ("/" ++ k) vs
  | Database.consul => Req.consulOp k vs

/-- The sequence of operations `generateWrites` sends into the request
queue before closing it: one request per index `i` in `0..TotalRequests-1`. -/
def generateWrites (cfg : Config) (vals : Values) : List Req :=
  (List.range cfg.step2.totalRequests).map (writeRequest cfg vals)

/-- The request sent for each read operation in `generateReads`: the fixed
key for every backend; etcdv3 gets a range Get, serializable when LocalRead. -/
def readRequest (cfg : Config) (key : String) : Req :=
  match cfg.database with
  | Database.etcdv2 => Req.etcdv2Op key ""
  | Database.etcdv3 => Req.etcdv3Get key cfg.step2.localRead
  | Database.zookeeper => Req.zkOp key ""
  | Database.consul => Req.consulOp key ""

/-- The sequence of operations `generateReads` sends into the request queue
before closing it: the same fixed-key request, `TotalRequests` times. -/
def generateReads (cfg : Config) (key : String) : List Req :=
  (List.range cfg.step2.totalRequests).map (fun _ => readRequest cfg key)

/-- Modelled from the spec: the per-operation `result` record (defined in a
repository file not under `src`): duration plus success or error cause. -/
structure Outcome where
  errText : String
  durationNs : Nat
deriving DecidableEq

/-- Modelled from the spec: `doHandler` (defined in a repository file not
under `src`): a worker receives operations from the shared queue until it is
closed and drained, executes each against its own connection, and emits
exactly one Outcome per operation. -/
def doHandler (exec : Req → Outcome) (ops : List Req) : List Outcome :=
  ops.map exec

/-- Modelled from the spec: the aggregator (`printReport`, defined in a
repository file not under `src`) consumes the merged outcome stream, one
count per Outcome, until the driver closes the results stream after all
workers exited. -/
def aggregatorReceived (workerOutcomes : List (List Outcome)) : Nat :=
  (workerOutcomes.map List.length).sum

/-- Phase selector: step2 runs either the write or the read workload. -/
inductive Phase
  | writePhase
  | readPhase
deriving DecidableEq

/-- The operation sequence the generator of a phase sends into the queue. -/
def generatedOps (cfg : Config) (vals : Values) (key : String) : Phase → List Req
  | Phase.writePhase => generateWrites cfg vals
  | Phase.readPhase => generateReads cfg key

/-- Capacity of the shared request queue, `make(chan request, cfg.Step2.Clients)`
(control.go lines 163 and 286). -/
def requestsChanCapacity (cfg : Config) : Nat := cfg.step2.clients

/-- Number of workers: `make([]ReqHandler, cfg.Step2.Clients)` in
`newWriteHandlers` and `newReadHandlers`, one `doHandler` goroutine each. -/
def workerCount (cfg : Config) : Nat := cfg.step2.clients

/-- A single event on a Go buffered channel. -/
inductive ChanOp
  | send
  | recv
deriving DecidableEq

/-- One step of a buffered channel of capacity `cap`: a send blocks (no
successor state) when the buffer is full, a receive blocks when it is empty. -/
def chanStep (cap : Nat) : Nat → ChanOp → Option Nat
  | n, ChanOp.send => if n < cap then some (n + 1) else none
  | n, ChanOp.recv => if n = 0 then none else some (n - 1)

/-- Run a trace of channel events from buffer occupancy `n`. -/
def chanRun (cap : Nat) : Nat → List ChanOp → Option Nat
  | n, [] => some n
  | n, op :: ops =>
    match chanStep cap n op with
    | none => none
    | some m => chanRun cap m ops

/-- The priming-write retry loop of the read phase (control.go, each backend
branch of lines 205-283): attempts `i = 0..6`, continue on error, break on
the first success; the loop exits successfully iff some of the 7 attempts
succeeds. `primeFails i = true` means attempt `i` returns an error. -/
def primingSucceeds (primeFails : Nat → Bool) : Bool :=
  (List.range 7).any (fun i => !(primeFails i))

/-- Number of priming attempts actually performed: the loop stops at the
first success, otherwise runs all 7 attempts. -/
def primingAttemptsMade (primeFails : Nat → Bool) : Nat :=
  match (List.range 7).findIdx? (fun i => !(primeFails i)) with
  | some k => k + 1
  | none => 7

/-- Result of the read phase of `step2`: either the whole process exits
fatally (`os.Exit(1)`), or the phase runs and generates its reads. -/
inductive PhaseResult
  | fatalExit
  | completed (reads : List Req)
deriving DecidableEq

/-- The read branch of `step2` (control.go lines 205-313): a priming write
of the fixed read key with up to 7 attempts; on success the read generator
runs, on exhaustion the process exits before any read is generated. -/
def step2ReadPhase (cfg : Config) (primeFails : Nat → Bool) : PhaseResult :=
  let key := sameKey cfg.step2.keySize
  if primingSucceeds primeFails then
    PhaseResult.completed (generateReads cfg key)
  else
    PhaseResult.fatalExit

/-- The error-collection loop of `bcastReq` (control.go lines 336-343):
one select iteration per arrival, appending errors in arrival order. -/
def collectErrs : List (Option String) → List String
  | [] => []
  | none :: rest => collectErrs rest
  | some e :: rest => e :: collectErrs rest

/-- The receive loop of `bcastReq`: `for cnt := 0; cnt != len(peers); cnt++`
consumes exactly `n` per-peer results; `none` means the loop would block
forever (fewer arrivals than peers). -/
def bcastGather : Nat → List (Option String) → Option (List String)
  | 0, _ => some []
  | _ + 1, [] => none
  | k + 1, none :: rest => bcastGather k rest
  | k + 1, some e :: rest => (bcastGather k rest).map (fun errs => e :: errs)

/-- `bcastReq` (control.go lines 320-349): wait for exactly `n` per-peer
results, then return `errs[0]` if any error was collected, else nil. The
outer `none` means the call never returns. -/
def bcastReq (n : Nat) (arrivals : List (Option String)) : Option (Option String) :=
  (bcastGather n arrivals).map (fun errs =>
    match errs with
    | [] => none
    | e :: _ => some e)

/-- Result of one upload retry loop (agent.go, each of the three loops
`for k := 0; k < 30; k++` in the upload phase): how many attempts were made,
how many two-second delays were slept, and whether the file was uploaded. -/
structure UploadOutcome where
  attempts : Nat
  delays : Nat
  uploaded : Bool
deriving DecidableEq

/-- One upload retry loop, attempt index `k` with `remaining = 30 - k`
iterations left: a failed attempt logs, sleeps two seconds and continues,
a successful attempt breaks; exhaustion leaves the file not uploaded.
`uploadFails k = true` means attempt `k` returns an error. -/
def uploadLoop (uploadFails : Nat → Bool) : Nat → Nat → UploadOutcome
  | _, 0 => { attempts := 0, delays := 0, uploaded := false }
  | k, remaining + 1 =>
    if uploadFails k then
      let rest := uploadLoop uploadFails (k + 1) remaining
      { attempts := rest.attempts + 1, delays := rest.delays + 1, uploaded := rest.uploaded }
    else
      { attempts := 1, delays := 0, uploaded := true }

/-- Retry budget of each upload loop (agent.go lines 520, 537, 554). -/
def uploadBudget : Nat := 30

/-- The upload of one file with the full 30-attempt budget. -/
def uploadFile (uploadFails : Nat → Bool) : UploadOutcome :=
  uploadLoop uploadFails 0 uploadBudget

/-- The three artifacts uploaded after Stop, in program order. -/
structure UploadReport where
  databaseLog : UploadOutcome
  monitorLog : UploadOutcome
  agentLog : UploadOutcome
deriving DecidableEq

/-- The upload phase of the monitor goroutine (agent.go lines 503-564):
three independent sequential retry loops, one per artifact; exhaustion of one loop never aborts the goroutine or skips a later loop, and the function
returns normally afterwards (the run is never failed from here). -/
def uploadPhase (dbFails monFails agFails : Nat → Bool) : UploadReport :=
  { databaseLog := uploadFile dbFails
    monitorLog := uploadFile monFails
    agentLog := uploadFile agFails }

/-- A task spawned by `generateWrites` for the etcdv3 compaction trigger
(control.go lines 521-531), recording whether `wg.Add(1)` was called before
the spawn and whether the task body runs `defer wg.Done()`. -/
structure SpawnedTask where
  opIndex : Nat
  wgAddBeforeSpawn : Bool
  wgDoneOnExit : Bool
deriving DecidableEq

/-- The compaction tasks spawned during write generation: one per operation
index divisible by the configured cycle, etcdv3 only; the source wraps each
spawn in `wg.Add(1)` and the body in `defer wg.Done()`. -/
def compactionTasks (cfg : Config) : List SpawnedTask :=
  (List.range cfg.step2.totalRequests).filterMap (fun i =>
    if cfg.database = Database.etcdv3 ∧ 0 < cfg.step2.etcdv3CompactionCycle ∧
        i % cfg.step2.etcdv3CompactionCycle = 0 then
      some { opIndex := i, wgAddBeforeSpawn := true, wgDoneOnExit := true }
    else
      none)

/-- Head test for the three-underscore delimiter used by the peer list
encoding. -/
def startsWithSep : List Char → Bool
  | c1 :: c2 :: c3 :: _ => c1 == '_' && c2 == '_' && c3 == '_'
  | _ => false

/-- The scanning loop of Go `strings.Split(s, "___")` (agent.go line 163),
specialised to the `"___"` delimiter: at each position, the leftmost match
of the delimiter ends the current element. The fuel argument only bounds
the recursion; any fuel of at least the length of `s` gives the behaviour
of the loop. -/
def splitPeersGo : Nat → List Char → List Char → List (List Char)
  | 0, acc, _ => [acc]
  | fuel + 1, acc, s =>
    if startsWithSep s then acc :: splitPeersGo fuel [] (s.drop 3)
    else
      match s with
      | [] => [acc]
      | c :: rest => splitPeersGo fuel (acc ++ [c]) rest

/-- `strings.Split(r.PeerIPString, "___")` on the agent side. -/
def splitPeers (s : List Char) : List (List Char) :=
  splitPeersGo s.length [] s

/-- `strings.Join(cfg.PeerIPs, "___")` on the controller side
(control.go line 76). -/
def joinPeers : List (List Char) → List Char
  | [] => []
  | [s] => s
  | s :: rest => s ++ '_' :: '_' :: '_' :: joinPeers rest

/-- The `Request_Operation` enum of the agent control message. -/
inductive AgentOperation
  | start
  | restart
  | stop
deriving DecidableEq

/-- The `Request_Database` enum of the agent control message. -/
inductive AgentDatabase
  | etcdv2
  | etcdv3
  | zooKeeper
  | consul
deriving DecidableEq

/-- The agent control message (`agent.Request`), restricted to the fields
the `Transfer` handler reads. -/
structure AgentRequest where
  operation : AgentOperation
  database : AgentDatabase
  peerIPString : String
  serverIndex : Nat
  zookeeperMyID : Nat
  zookeeperMaxClientCnxns : Nat
  zookeeperSnapCount : Nat
  testName : String
  googleCloudProjectName : String
  googleCloudStorageKey : String
  googleCloudStorageBucketName : String
  googleCloudStorageSubDirectory : String
deriving DecidableEq

/-- The recorded command line of the supervised process (`exec.Cmd` path
and argument list). -/
structure AgentCmd where
  path : String
  args : List String
deriving DecidableEq

/-- The supervised-process record held by a `transporterServer` instance:
stored request, recorded command, open database log file, process id. -/
structure TransporterState where
  req : AgentRequest
  cmd : Option AgentCmd
  logfile : Option String
  pid : Nat
deriving DecidableEq

/-- Observable side effects of one `Transfer` call, in program order. -/
inductive AgentEffect
  | fileWrite (path : String) (ok : Bool)
  | statBinary (path : String) (ok : Bool)
  | removeAll (path : String) (ok : Bool)
  | chdir (path : String) (ok : Bool)
  | mkdirAll (path : String) (ok : Bool)
  | openLog (path : String) (ok : Bool)
  | spawnProcess (path : String) (pid : Nat) (ok : Bool)
  | spawnWaitWatcher
  | spawnMonitorLoop
  | sleepSeconds (n : Nat)
  | sendSigterm (pid : Nat) (ok : Bool)
  | closeLogFile (path : String)
  | notifyStopped
deriving DecidableEq

/-- Success or failure of each fallible system call `Transfer` can make,
plus the pid the OS would assign to a spawned process. -/
structure AgentEnv where
  gcloudKeyWriteOk : Bool
  binaryStatOk : Bool
  removeAllOk : Bool
  chdirOk : Bool
  mkdirOk : Bool
  myidWriteOk : Bool
  zkConfigWriteOk : Bool
  openLogOk : Bool
  spawnOk : Bool
  spawnPid : Nat
  killOk : Bool
deriving DecidableEq

/-- The gRPC response on success (`agent.Response`). -/
structure AgentResponse where
  success : Bool
deriving DecidableEq

instance {ε α : Type} [DecidableEq ε] [DecidableEq α] : DecidableEq (Except ε α) :=
  fun x y =>
    match x, y with
    | Except.error a, Except.error b =>
      if h : a = b then isTrue (by rw [h])
      else isFalse (fun hh => h (Except.error.inj hh))
    | Except.ok a, Except.ok b =>
      if h : a = b then isTrue (by rw [h])
      else isFalse (fun hh => h (Except.ok.inj hh))
    | Except.error _, Except.ok _ => isFalse (fun hh => Except.noConfusion hh)
    | Except.ok _, Except.error _ => isFalse (fun hh => Except.noConfusion hh)

/-- Result of one `Transfer` call: the new server state, the RPC result
(error string or response), and the effects performed, in order. -/
structure TransferResult where
  state : TransporterState
  response : Except String AgentResponse
  effects : List AgentEffect
deriving DecidableEq

def agentLogPath : String := "agent.log"

def databaseLogPath : String := "database.log"

def monitorLogPath : String := "monitor.csv"

def etcdBinaryPath : String := "bin/etcd"

def consulBinaryPath : String := "bin/consul"

def javaBinaryPath : String := "/usr/bin/java"

def etcdDataDir : String := "data.etcd"

def consulDataDir : String := "data.consul"

def zkWorkingDir : String := "zookeeper"

def zkDataDir : String := "zookeeper/data.zk"

def zkConfigPath : String := "zookeeper.config"

/-- `filepath.Join(globalFlags.WorkingDirectory, "gcloud-key.json")`
(agent.go line 197). -/
def gcloudKeyPath (wd : String) : String := wd ++ "/gcloud-key.json"

/-- The etcd startup command rendered for Start (agent.go lines 220-253). -/
def etcdStartCmd (peerIPs : List String) (serverIndex : Nat) : AgentCmd :=
  let clientURL := fun (u : String) => "http://" ++ u ++ ":2379"
  let peerURL := fun (u : String) => "http://" ++ u ++ ":2380"
  let member := fun (i : Nat) (u : String) =>
    "etcd-" ++ (Nat.succ i).repr ++ "=" ++ peerURL u
  let clusterStr := String.intercalate "," ((List.range peerIPs.length).map
    (fun i => member i (peerIPs.getD i "")))
  let u := peerIPs.getD serverIndex ""
  { path := etcdBinaryPath
    args :=
      ["--name", "etcd-" ++ (Nat.succ serverIndex).repr,
       "--data-dir", etcdDataDir,
       "--listen-client-urls", clientURL u,
       "--advertise-client-urls", clientURL u,
       "--listen-peer-urls", peerURL u,
       "--initial-advertise-peer-urls", peerURL u,
       "--initial-cluster-token", "etcd_token",
       "--initial-cluster", clusterStr,
       "--initial-cluster-state", "new"] }

/-- The ZooKeeper startup command (agent.go lines 324-327): the shell runs
the java class with the rendered config file. -/
def zkStartCmd : AgentCmd :=
  { path := "sh"
    args := ["-c", javaBinaryPath ++
      " -cp zookeeper-3.4.8.jar:lib/slf4j-api-1.6.1.jar:lib/slf4j-log4j12-1.6.1.jar:lib/log4j-1.2.16.jar:conf org.apache.zookeeper.server.quorum.QuorumPeerMain " ++
      zkWorkingDir ++ "/" ++ zkConfigPath] }

/-- The Consul startup command (agent.go lines 360-384): the node of server
index 0 bootstraps, all others join it. -/
def consulStartCmd (peerIPs : List String) (serverIndex : Nat) : AgentCmd :=
  let ip := peerIPs.getD serverIndex ""
  { path := consulBinaryPath
    args :=
      if serverIndex = 0 then
        ["agent", "-server", "-data-dir", consulDataDir,
         "-bind", ip, "-client", ip, "-bootstrap-expect", "3"]
      else
        ["agent", "-server", "-data-dir", consulDataDir,
         "-bind", ip, "-client", ip, "-join", peerIPs.getD 0 ""] }

/-- The `Request_Start` branch of `Transfer` (agent.go lines 204-405), per
backend: stat the binary, reset the data directory (etcd/consul) or chdir,
mkdir, write myid and config (zookeeper), open the database log, spawn the
process, record cmd/pid, spawn the exit watcher. Every failure returns the
error immediately, keeping the effects performed so far. -/
def startBranch (env : AgentEnv) (t : TransporterState) (peerIPs : List String) :
    TransporterState × Except String AgentResponse × List AgentEffect :=
  match t.req.database with
  | AgentDatabase.etcdv2 | AgentDatabase.etcdv3 =>
    if env.binaryStatOk = false then
      (t, Except.error "stat etcd binary",
       [AgentEffect.statBinary etcdBinaryPath false])
    else if env.removeAllOk = false then
      (t, Except.error "remove etcd data dir",
       [AgentEffect.statBinary etcdBinaryPath true,
        AgentEffect.removeAll etcdDataDir false])
    else if env.openLogOk = false then
      (t, Except.error "open database log",
       [AgentEffect.statBinary etcdBinaryPath true,
        AgentEffect.removeAll etcdDataDir true,
        AgentEffect.openLog databaseLogPath false])
    else
      let t1 := { t with logfile := some databaseLogPath }
      let cmd := etcdStartCmd peerIPs t.req.serverIndex
      if env.spawnOk = false then
        (t1, Except.error "spawn etcd",
         [AgentEffect.statBinary etcdBinaryPath true,
          AgentEffect.removeAll etcdDataDir true,
          AgentEffect.openLog databaseLogPath true,
          AgentEffect.spawnProcess cmd.path env.spawnPid false])
      else
        ({ t1 with cmd := some cmd, pid := env.spawnPid },
         Except.ok { success := true },
         [AgentEffect.statBinary etcdBinaryPath true,
          AgentEffect.removeAll etcdDataDir true,
          AgentEffect.openLog databaseLogPath true,
          AgentEffect.spawnProcess cmd.path env.spawnPid true,
          AgentEffect.spawnWaitWatcher])
  | AgentDatabase.zooKeeper =>
    if env.binaryStatOk = false then
      (t, Except.error "stat java binary",
       [AgentEffect.statBinary javaBinaryPath false])
    else if env.chdirOk = false then
      (t, Except.error "chdir zookeeper",
       [AgentEffect.statBinary javaBinaryPath true,
        AgentEffect.chdir zkWorkingDir false])
    else if env.mkdirOk = false then
      (t, Except.error "mkdir zookeeper data dir",
       [AgentEffect.statBinary javaBinaryPath true,
        AgentEffect.chdir zkWorkingDir true,
        AgentEffect.mkdirAll zkDataDir false])
    else if env.myidWriteOk = false then
      (t, Except.error "write myid",
       [AgentEffect.statBinary javaBinaryPath true,
        AgentEffect.chdir zkWorkingDir true,
        AgentEffect.mkdirAll zkDataDir true,
        AgentEffect.fileWrite (zkDataDir ++ "/myid") false])
    else if env.zkConfigWriteOk = false then
      (t, Except.error "write zookeeper config",
       [AgentEffect.statBinary javaBinaryPath true,
        AgentEffect.chdir zkWorkingDir true,
        AgentEffect.mkdirAll zkDataDir true,
        AgentEffect.fileWrite (zkDataDir ++ "/myid") true,
        AgentEffect.fileWrite (zkWorkingDir ++ "/" ++ zkConfigPath) false])
    else if env.openLogOk = false then
      (t, Except.error "open database log",
       [AgentEffect.statBinary javaBinaryPath true,
        AgentEffect.chdir zkWorkingDir true,
        AgentEffect.mkdirAll zkDataDir true,
        AgentEffect.fileWrite (zkDataDir ++ "/myid") true,
        AgentEffect.fileWrite (zkWorkingDir ++ "/" ++ zkConfigPath) true,
        AgentEffect.openLog databaseLogPath false])
    else
      let t1 := { t with logfile := some databaseLogPath }
      if env.spawnOk = false then
        (t1, Except.error "spawn zookeeper",
         [AgentEffect.statBinary javaBinaryPath true,
          AgentEffect.chdir zkWorkingDir true,
          AgentEffect.mkdirAll zkDataDir true,
          AgentEffect.fileWrite (zkDataDir ++ "/myid") true,
          AgentEffect.fileWrite (zkWorkingDir ++ "/" ++ zkConfigPath) true,
          AgentEffect.openLog databaseLogPath true,
          AgentEffect.spawnProcess zkStartCmd.path env.spawnPid false])
      else
        ({ t1 with cmd := some zkStartCmd, pid := env.spawnPid },
         Except.ok { success := true },
         [AgentEffect.statBinary javaBinaryPath true,
          AgentEffect.chdir zkWorkingDir true,
          AgentEffect.mkdirAll zkDataDir true,
          AgentEffect.fileWrite (zkDataDir ++ "/myid") true,
          AgentEffect.fileWrite (zkWorkingDir ++ "/" ++ zkConfigPath) true,
          AgentEffect.openLog databaseLogPath true,
          AgentEffect.spawnProcess zkStartCmd.path env.spawnPid true,
          AgentEffect.spawnWaitWatcher])
  | AgentDatabase.consul =>
    if env.binaryStatOk = false then
      (t, Except.error "stat consul binary",
       [AgentEffect.statBinary consulBinaryPath false])
    else if env.removeAllOk = false then
      (t, Except.error "remove consul data dir",
       [AgentEffect.statBinary consulBinaryPath true,
        AgentEffect.removeAll consulDataDir false])
    else if env.openLogOk = false then
      (t, Except.error "open database log",
       [AgentEffect.statBinary consulBinaryPath true,
        AgentEffect.removeAll consulDataDir true,
        AgentEffect.openLog databaseLogPath false])
    else
      let t1 := { t with logfile := some databaseLogPath }
      let cmd := consulStartCmd peerIPs t.req.serverIndex
      if env.spawnOk = false then
        (t1, Except.error "spawn consul",
         [AgentEffect.statBinary consulBinaryPath true,
          AgentEffect.removeAll consulDataDir true,
          AgentEffect.openLog databaseLogPath true,
          AgentEffect.spawnProcess cmd.path env.spawnPid false])
      else
        ({ t1 with cmd := some cmd, pid := env.spawnPid },
         Except.ok { success := true },
         [AgentEffect.statBinary consulBinaryPath true,
          AgentEffect.removeAll consulDataDir true,
          AgentEffect.openLog databaseLogPath true,
          AgentEffect.spawnProcess cmd.path env.spawnPid true,
          AgentEffect.spawnWaitWatcher])

/-- The `Request_Restart` branch of `Transfer` (agent.go lines 407-442):
fails on a nil recorded command before doing anything; otherwise chdir for
ZooKeeper, reopen the database log, and re-spawn the recorded command line. -/
def restartBranch (env : AgentEnv) (t : TransporterState)
    (reqDatabase : AgentDatabase) :
    TransporterState × Except String AgentResponse × List AgentEffect :=
  match t.cmd with
  | none => (t, Except.error "nil command", [])
  | some c =>
    let chdirEffects : List AgentEffect :=
      if reqDatabase = AgentDatabase.zooKeeper then
        [AgentEffect.chdir zkWorkingDir env.chdirOk]
      else []
    if reqDatabase = AgentDatabase.zooKeeper ∧ env.chdirOk = false then
      (t, Except.error "chdir zookeeper", chdirEffects)
    else if env.openLogOk = false then
      (t, Except.error "open database log",
       chdirEffects ++ [AgentEffect.openLog databaseLogPath false])
    else
      let t1 := { t with logfile := some databaseLogPath }
      if env.spawnOk = false then
        (t1, Except.error "restart spawn",
         chdirEffects ++
          [AgentEffect.openLog databaseLogPath true,
           AgentEffect.spawnProcess c.path env.spawnPid false])
      else
        ({ t1 with cmd := some c, pid := env.spawnPid },
         Except.ok { success := true },
         chdirEffects ++
          [AgentEffect.openLog databaseLogPath true,
           AgentEffect.spawnProcess c.path env.spawnPid true,
           AgentEffect.spawnWaitWatcher])

/-- The `Request_Stop` branch of `Transfer` (agent.go lines 444-458): sleep
three seconds for trailing monitor samples, fail on a nil recorded command,
otherwise SIGTERM the recorded pid, close the open log file, and signal the
monitor loop that the database stopped. -/
def stopBranch (env : AgentEnv) (t : TransporterState) :
    TransporterState × Except String AgentResponse × List AgentEffect :=
  match t.cmd with
  | none => (t, Except.error "nil command", [AgentEffect.sleepSeconds 3])
  | some _ =>
    if env.killOk = false then
      (t, Except.error "kill",
       [AgentEffect.sleepSeconds 3, AgentEffect.sendSigterm t.pid false])
    else
      match t.logfile with
      | some p =>
        (t, Except.ok { success := true },
         [AgentEffect.sleepSeconds 3, AgentEffect.sendSigterm t.pid true,
          AgentEffect.closeLogFile p, AgentEffect.notifyStopped])
      | none =>
        (t, Except.ok { success := true },
         [AgentEffect.sleepSeconds 3, AgentEffect.sendSigterm t.pid true,
          AgentEffect.notifyStopped])

/-- The `Transfer` RPC handler (agent.go lines 162-572): split the peer list,
store the request on Start, write the cloud credential file when the stored
key is non-empty (returning that error before any process action), dispatch
on the operation, and spawn the monitor loop after a successful Start or
Restart. -/
def Transfer (wd : String) (env : AgentEnv) (t : TransporterState)
    (r : AgentRequest) : TransferResult :=
  let peerIPs := (splitPeers r.peerIPString.data).map (fun l => String.mk l)
  let t1 := if r.operation = AgentOperation.start then { t with req := r } else t
  if t1.req.googleCloudStorageKey ≠ "" ∧ env.gcloudKeyWriteOk = false then
    { state := t1
      response := Except.error "write gcloud-key.json"
      effects := [AgentEffect.fileWrite (gcloudKeyPath wd) false] }
  else
    let gcEffects : List AgentEffect :=
      if t1.req.googleCloudStorageKey ≠ "" then
        [AgentEffect.fileWrite (gcloudKeyPath wd) true]
      else []
    let core :=
      match r.operation with
      | AgentOperation.start => startBranch env t1 peerIPs
      | AgentOperation.restart => restartBranch env t1 r.database
      | AgentOperation.stop => stopBranch env t1
    let monEffects : List AgentEffect :=
      match r.operation, core.2.1 with
      | AgentOperation.start, Except.ok _ => [AgentEffect.spawnMonitorLoop]
      | AgentOperation.restart, Except.ok _ => [AgentEffect.spawnMonitorLoop]
      | _, _ => []
    { state := core.1
      response := core.2.1
      effects := gcEffects ++ core.2.2 ++ monEffects }

/-- Effect classifiers used to state what an erroring `Transfer` did not do. -/
def isSigtermEffect : AgentEffect → Bool
  | AgentEffect.sendSigterm _ _ => true
  | _ => false

def isCloseLogEffect : AgentEffect → Bool
  | AgentEffect.closeLogFile _ => true
  | _ => false

def isSpawnEffect : AgentEffect → Bool
  | AgentEffect.spawnProcess _ _ _ => true
  | AgentEffect.spawnWaitWatcher => true
  | AgentEffect.spawnMonitorLoop => true
  | _ => false

/-- A small concrete step2 configuration used to evaluate the model. -/
def sampleStep2 : Step2Config :=
  { benchType := "write", totalRequests := 3, clients := 2, connections := 2,
    keySize := 4, valueSize := 8, sameKeyMode := false, localRead := false,
    etcdv3CompactionCycle := 0, requestIntervalMs := 0 }

/-- A small concrete run configuration used to evaluate the model. -/
def sampleConfig : Config :=
  { database := Database.etcdv2, peerIPs := ["10.0.0.1", "10.0.0.2"],
    agentPort := 3500, databasePort := 2379, step2 := sampleStep2 }

/-- A concrete etcdv3 configuration with a compaction cycle, used to
evaluate the compaction-task trace. -/
def compactConfig : Config :=
  { database := Database.etcdv3, peerIPs := ["10.0.0.1"],
    agentPort := 3500, databasePort := 2379,
    step2 := { sampleStep2 with etcdv3CompactionCycle := 1, totalRequests := 1 } }

/-- A sample value corpus of one synthetic value. -/
def sampleValues : Values := { strs := ["vvvvvvvv"], sampleSize := 1 }

/-- The sample configuration with same-key mode switched on. -/
def sameKeyConfig : Config :=
  { sampleConfig with step2 := { sampleStep2 with sameKeyMode := true } }

/-- Priming oracle that fails the first six attempts and succeeds on the
seventh. -/
def failFirst6 : Nat → Bool := fun i => decide (i < 6)

/-- Priming oracle that fails every attempt. -/
def alwaysFailPrime : Nat → Bool := fun _ => true

/-- Upload oracle that fails the first 29 attempts and succeeds on the
30th. -/
def failFirst29 : Nat → Bool := fun m => decide (m < 29)

/-- Upload oracle that fails permanently. -/
def alwaysFailUpload : Nat → Bool := fun _ => true

/-- An environment in which every system call succeeds. -/
def sampleEnv : AgentEnv :=
  { gcloudKeyWriteOk := true, binaryStatOk := true, removeAllOk := true,
    chdirOk := true, mkdirOk := true, myidWriteOk := true,
    zkConfigWriteOk := true, openLogOk := true, spawnOk := true,
    spawnPid := 42, killOk := true }

/-- An environment in which the credential-file write fails. -/
def badWriteEnv : AgentEnv :=
  { sampleEnv with gcloudKeyWriteOk := false }

/-- The zero agent request (as a fresh `transporterServer` stores it). -/
def zeroRequest : AgentRequest :=
  { operation := AgentOperation.start, database := AgentDatabase.etcdv2,
    peerIPString := "", serverIndex := 0, zookeeperMyID := 0,
    zookeeperMaxClientCnxns := 0, zookeeperSnapCount := 0, testName := "",
    googleCloudProjectName := "", googleCloudStorageKey := "",
    googleCloudStorageBucketName := "", googleCloudStorageSubDirectory := "" }

/-- A fresh agent state: nothing recorded yet. -/
def freshState : TransporterState :=
  { req := zeroRequest, cmd := none, logfile := none, pid := 0 }

/-- A fresh agent state whose stored request carries a cloud storage key
(as left behind by a failed Start whose request carried one). -/
def keyedState : TransporterState :=
  { freshState with req := { zeroRequest with googleCloudStorageKey := "KEYDATA" } }

/-- A Stop control message. -/
def stopRequest : AgentRequest :=
  { zeroRequest with operation := AgentOperation.stop }

/-- A Restart control message. -/
def restartRequest : AgentRequest :=
  { zeroRequest with operation := AgentOperation.restart }

/-! Helper lemmas follow. -/

theorem bcastGather_length (arrivals : List (Option String)) :
    bcastGather arrivals.length arrivals = some (collectErrs arrivals) := by
  induction arrivals with
  | nil => rfl
  | cons a rest ih =>
    cases a with
    | none => simpa [bcastGather, collectErrs] using ih
    | some e => simp [bcastGather, collectErrs, ih]

theorem collectErrs_eq_nil_iff (l : List (Option String)) :
    collectErrs l = [] ↔ ∀ a ∈ l, a = none := by
  induction l with
  | nil => simp [collectErrs]
  | cons a rest ih =>
    cases a with
    | none => simp [collectErrs, ih]
    | some e => simp [collectErrs]

theorem uploadLoop_attempts_le (f : Nat → Bool) :
    ∀ remaining k, (uploadLoop f k remaining).attempts ≤ remaining := by
  intro remaining
  induction remaining with
  | zero => intro k; simp [uploadLoop]
  | succ r ih =>
    intro k
    have hr := ih (k + 1)
    by_cases h : f k = true
    · simp [uploadLoop, h]
      omega
    · have hf : f k = false := by simpa using h
      simp [uploadLoop, hf]

theorem uploadLoop_first_success (f : Nat → Bool) :
    ∀ j remaining k, (∀ m, k ≤ m → m < k + j → f m = true) → f (k + j) = false →
      j < remaining →
      uploadLoop f k remaining = { attempts := j + 1, delays := j, uploaded := true } := by
  intro j
  induction j with
  | zero =>
    intro remaining k hall hsucc hlt
    cases remaining with
    | zero => omega
    | succ r =>
      have hk : f k = false := by simpa using hsucc
      simp [uploadLoop, hk]
  | succ j ih =>
    intro remaining k hall hsucc hlt
    cases remaining with
    | zero => omega
    | succ r =>
      have hfk : f k = true := hall k (Nat.le_refl k) (by omega)
      have hrec := ih r (k + 1) (fun m h1 h2 => hall m (by omega) (by omega))
        (by have : k + 1 + j = k + (j + 1) := by omega
            rw [this]; exact hsucc)
        (by omega)
      simp [uploadLoop, hfk, hrec]

theorem uploadLoop_all_fail (f : Nat → Bool) :
    ∀ remaining k, (∀ m, k ≤ m → m < k + remaining → f m = true) →
      uploadLoop f k remaining =
        { attempts := remaining, delays := remaining, uploaded := false } := by
  intro remaining
  induction remaining with
  | zero => intro k _; simp [uploadLoop]
  | succ r ih =>
    intro k h
    have hfk : f k = true := h k (Nat.le_refl k) (by omega)
    have hrec := ih (k + 1) (fun m h1 h2 => h m (by omega) (by omega))
    simp [uploadLoop, hfk, hrec]

theorem chanRun_le (cap : Nat) :
    ∀ tr m n, m ≤ cap → chanRun cap m tr = some n → n ≤ cap := by
  intro tr
  induction tr with
  | nil =>
    intro m n hm h
    simp [chanRun] at h
    omega
  | cons op ops ih =>
    intro m n hm h
    cases op with
    | send =>
      by_cases hlt : m < cap
      · simp [chanRun, chanStep, hlt] at h
        exact ih (m + 1) n (by omega) h
      · simp [chanRun, chanStep, hlt] at h
    | recv =>
      by_cases hz : m = 0
      · simp [chanRun, chanStep, hz] at h
      · simp [chanRun, chanStep, hz] at h
        exact ih (m - 1) n (by omega) h

/-! Claim theorems follow. -/

/-- C2: in the read phase the priming write of the fixed read key is
attempted at most 7 times; if any of the first 7 attempts succeeds the read
phase proceeds to generate its reads, and if all 7 fail the process exits
fatally before any read operation is generated — for every configured
backend (the `cfg.database` field ranges over all four). -/
theorem priming_bounded_retry (cfg : Config) (pf : Nat → Bool) :
    primingAttemptsMade pf ≤ 7 ∧
    ((∃ i, i < 7 ∧ pf i = false) →
      step2ReadPhase cfg pf =
        PhaseResult.completed (generateReads cfg (sameKey cfg.step2.keySize))) ∧
    ((∀ i, i < 7 → pf i = true) → step2ReadPhase cfg pf = PhaseResult.fatalExit) := by
  refine ⟨?_, ?_, ?_⟩
  · cases h : (List.range 7).findIdx? (fun i => !(pf i)) with
    | none => simp [primingAttemptsMade, h]
    | some k =>
      have hk := (List.findIdx?_eq_some_iff_findIdx_eq.mp h).1
      simp only [List.length_range] at hk
      simp only [primingAttemptsMade, h]
      omega
  · rintro ⟨i, hi, hpi⟩
    have hs : primingSucceeds pf = true := by
      unfold primingSucceeds
      rw [List.any_eq_true]
      exact ⟨i, by simpa using hi, by simp [hpi]⟩
    simp [step2ReadPhase, hs]
  · intro hall
    have hs : primingSucceeds pf = false := by
      unfold primingSucceeds
      rw [List.any_eq_false]
      intro i hi
      simp [hall i (by simpa using hi)]
    simp [step2ReadPhase, hs]

/-- C2 witness: with a backend that fails the first six priming attempts and
succeeds on the seventh the read phase runs, and with a backend that fails
all seven attempts the process exits fatally. -/
theorem priming_bounded_retry_witness :
    step2ReadPhase sampleConfig failFirst6 =
      PhaseResult.completed (generateReads sampleConfig (sameKey sampleConfig.step2.keySize)) ∧
    step2ReadPhase sampleConfig alwaysFailPrime = PhaseResult.fatalExit :=
  ⟨(priming_bounded_retry sampleConfig failFirst6).2.1 ⟨6, by decide, by decide⟩,
   (priming_bounded_retry sampleConfig alwaysFailPrime).2.2 (fun _ _ => rfl)⟩

/-- C3: the broadcast waits for exactly one result per peer (it returns only
when all `numPeers` responses arrived, and would block otherwise); it returns
nil iff every peer succeeded, and when one or more peers fail it returns the
first error collected in arrival order, so the return value cannot separate
partial from total failure. -/
theorem bcastReq_first_error (numPeers : Nat) (arrivals : List (Option String))
    (hlen : arrivals.length = numPeers) :
    (∃ ret, bcastReq numPeers arrivals = some ret) ∧
    (bcastReq numPeers arrivals = some none ↔ ∀ a ∈ arrivals, a = none) ∧
    (∀ e rest, collectErrs arrivals = e :: rest →
      bcastReq numPeers arrivals = some (some e)) := by
  subst hlen
  have hg := bcastGather_length arrivals
  refine ⟨⟨_, by rw [bcastReq, hg]; rfl⟩, ?_, ?_⟩
  · rw [bcastReq, hg]
    cases hc : collectErrs arrivals with
    | nil =>
      rw [Option.map_some']
      constructor
      · intro _
        exact (collectErrs_eq_nil_iff arrivals).mp hc
      · intro _; rfl
    | cons e rest =>
      rw [Option.map_some']
      constructor
      · intro habs
        exact absurd habs (by simp)
      · intro hall
        have := (collectErrs_eq_nil_iff arrivals).mpr hall
        rw [hc] at this
        exact absurd this (by simp)
  · intro e rest hc
    rw [bcastReq, hg, hc]
    rfl

/-- C3 witness: three peers, the second and third fail in arrival order;
all three results are consumed and the first collected error is returned. -/
theorem bcastReq_first_error_witness :
    bcastReq 3 [none, some "dial error", some "later error"] = some (some "dial error") :=
  (bcastReq_first_error 3 [none, some "dial error", some "later error"] rfl).2.2
    "dial error" ["later error"] rfl

/-- C5: each artifact upload makes at most 30 attempts; an upload that
succeeds on 1-based attempt `k + 1` slept exactly `k` two-second delays
before it; permanent failure makes exactly 30 attempts and leaves the file
not uploaded; and the three per-file retry loops run independently in
sequence, so one file exhausting its budget neither skips the later files
nor fails the run. -/
theorem upload_retry_per_file (f dbFails monFails agFails : Nat → Bool) (k : Nat) :
    (uploadFile f).attempts ≤ uploadBudget ∧
    ((∀ m, m < k → f m = true) → f k = false → k < uploadBudget →
      uploadFile f = { attempts := k + 1, delays := k, uploaded := true }) ∧
    ((∀ m, m < uploadBudget → f m = true) →
      uploadFile f =
        { attempts := uploadBudget, delays := uploadBudget, uploaded := false }) ∧
    uploadPhase dbFails monFails agFails =
      { databaseLog := uploadFile dbFails, monitorLog := uploadFile monFails,
        agentLog := uploadFile agFails } := by
  refine ⟨uploadLoop_attempts_le f uploadBudget 0, ?_, ?_, rfl⟩
  · intro hall hsucc hlt
    exact uploadLoop_first_success f k uploadBudget 0
      (fun m _ hm => hall m (by omega)) (by simpa using hsucc) hlt
  · intro hall
    exact uploadLoop_all_fail f uploadBudget 0 (fun m _ hm => hall m (by omega))

/-- C5 witness: an uploader failing 29 times succeeds on the 30th attempt
after exactly 29 delays, and a permanently failing uploader makes exactly
30 attempts without being retried further. -/
theorem upload_retry_per_file_witness :
    uploadFile failFirst29 = { attempts := 30, delays := 29, uploaded := true } ∧
    uploadFile alwaysFailUpload =
      { attempts := 30, delays := 30, uploaded := false } :=
  ⟨(upload_retry_per_file failFirst29 failFirst29 failFirst29 failFirst29 29).2.1
      (fun m hm => decide_eq_true hm) (by decide) (by decide),
   (upload_retry_per_file alwaysFailUpload alwaysFailUpload alwaysFailUpload
      alwaysFailUpload 0).2.2.1 (fun _ _ => rfl)⟩

/-- C6: for every phase the shared operation queue is created with buffer
capacity equal to the configured client (worker) count, every reachable
buffer occupancy stays at or below that count whatever the trace of sends
and receives (hence whatever the total operation count), and a send on a
full queue blocks the generator. -/
theorem request_queue_bounded (cfg : Config) (tr : List ChanOp) (n : Nat)
    (h : chanRun (requestsChanCapacity cfg) 0 tr = some n) :
    requestsChanCapacity cfg = cfg.step2.clients ∧
    n ≤ cfg.step2.clients ∧
    chanStep (requestsChanCapacity cfg) cfg.step2.clients ChanOp.send = none := by
  refine ⟨rfl, ?_, ?_⟩
  · exact chanRun_le (requestsChanCapacity cfg) tr 0 n (Nat.zero_le _) h
  · simp [chanStep, requestsChanCapacity]

/-- C6 witness: with two clients, a trace of sends and receives keeps the
buffer at or below two. -/
theorem request_queue_bounded_witness :
    requestsChanCapacity sampleConfig = sampleConfig.step2.clients ∧
    2 ≤ sampleConfig.step2.clients ∧
    chanStep (requestsChanCapacity sampleConfig) sampleConfig.step2.clients
      ChanOp.send = none := by
  have h := request_queue_bounded sampleConfig
    [ChanOp.send, ChanOp.send, ChanOp.recv, ChanOp.send] 2 (by decide)
  exact ⟨h.1, h.2.1, h.2.2⟩

/-- C4: on an agent instance with no recorded command (no Start ever
succeeded), Stop returns an error, sends no termination signal and closes
no log file, Restart returns an error and spawns nothing, and in both cases
the supervised process record is unchanged. -/
theorem stop_restart_require_prior_start (wd : String) (env : AgentEnv)
    (t : TransporterState) (r : AgentRequest) (hcmd : t.cmd = none) :
    (r.operation = AgentOperation.stop →
      (∃ msg, (Transfer wd env t r).response = Except.error msg) ∧
      (Transfer wd env t r).state = t ∧
      (Transfer wd env t r).effects.any isSigtermEffect = false ∧
      (Transfer wd env t r).effects.any isCloseLogEffect = false) ∧
    (r.operation = AgentOperation.restart →
      (∃ msg, (Transfer wd env t r).response = Except.error msg) ∧
      (Transfer wd env t r).state = t ∧
      (Transfer wd env t r).effects.any isSpawnEffect = false) := by
  constructor
  · intro hop
    rw [Transfer, hop]
    by_cases hk2 : env.gcloudKeyWriteOk = false
    · by_cases hk1 : t.req.googleCloudStorageKey = "" <;>
        simp [hk1, hk2, stopBranch, hcmd, isSigtermEffect, isCloseLogEffect]
    · have hk2t : env.gcloudKeyWriteOk = true := by simpa using hk2
      by_cases hk1 : t.req.googleCloudStorageKey = "" <;>
        simp [hk1, hk2t, stopBranch, hcmd, isSigtermEffect, isCloseLogEffect]
  · intro hop
    rw [Transfer, hop]
    by_cases hk2 : env.gcloudKeyWriteOk = false
    · by_cases hk1 : t.req.googleCloudStorageKey = "" <;>
        simp [hk1, hk2, restartBranch, hcmd, isSpawnEffect]
    · have hk2t : env.gcloudKeyWriteOk = true := by simpa using hk2
      by_cases hk1 : t.req.googleCloudStorageKey = "" <;>
        simp [hk1, hk2t, restartBranch, hcmd, isSpawnEffect]

/-- C4 witness: a fresh agent state (no recorded command) rejects Stop with
no signal or close, and rejects Restart with no spawn. -/
theorem stop_restart_require_prior_start_witness :
    ((∃ msg,
        (Transfer "/home" sampleEnv freshState stopRequest).response =
          Except.error msg) ∧
      (Transfer "/home" sampleEnv freshState stopRequest).state = freshState ∧
      (Transfer "/home" sampleEnv freshState stopRequest).effects.any
        isSigtermEffect = false ∧
      (Transfer "/home" sampleEnv freshState stopRequest).effects.any
        isCloseLogEffect = false) ∧
    ((∃ msg,
        (Transfer "/home" sampleEnv freshState restartRequest).response =
          Except.error msg) ∧
      (Transfer "/home" sampleEnv freshState restartRequest).state = freshState ∧
      (Transfer "/home" sampleEnv freshState restartRequest).effects.any
        isSpawnEffect = false) :=
  ⟨(stop_restart_require_prior_start "/home" sampleEnv freshState stopRequest
      rfl).1 rfl,
   (stop_restart_require_prior_start "/home" sampleEnv freshState restartRequest
      rfl).2 rfl⟩

/-- C10: on every Transfer call, whatever the operation, when the stored
stored cloud storage key is non-empty the agent first writes
gcloud-key.json (the first effect, before any process action); if that
write fails Transfer returns an error and performs no spawn, signal, or
log close. -/
theorem gcloud_key_written_before_operation (wd : String) (env : AgentEnv)
    (t : TransporterState) (r : AgentRequest)
    (hkey : (if r.operation = AgentOperation.start then r else t.req).googleCloudStorageKey ≠ "") :
    ((Transfer wd env t r).effects.head? =
      some (AgentEffect.fileWrite (gcloudKeyPath wd) env.gcloudKeyWriteOk)) ∧
    (env.gcloudKeyWriteOk = false →
      (Transfer wd env t r).response = Except.error "write gcloud-key.json" ∧
      (Transfer wd env t r).effects =
        [AgentEffect.fileWrite (gcloudKeyPath wd) false] ∧
      (Transfer wd env t r).effects.any isSpawnEffect = false ∧
      (Transfer wd env t r).effects.any isSigtermEffect = false ∧
      (Transfer wd env t r).effects.any isCloseLogEffect = false) := by
  have hkey2 :
      (if r.operation = AgentOperation.start then { t with req := r } else t).req.googleCloudStorageKey ≠ "" := by
    by_cases hs : r.operation = AgentOperation.start <;> simpa [hs] using hkey
  constructor
  · rw [Transfer]
    by_cases hok : env.gcloudKeyWriteOk = false
    · simp [hkey2, hok]
    · have hok2 : env.gcloudKeyWriteOk = true := by simpa using hok
      simp [hkey2, hok2]
  · intro hok
    rw [Transfer]
    simp [hkey2, hok, isSpawnEffect, isSigtermEffect, isCloseLogEffect]

/-- C10 witness: a Stop call on a state whose stored request carries a
cloud key, with a failing credential-file write, errors out with the write
as its only effect. -/
theorem gcloud_key_written_before_operation_witness :
    ((Transfer "/home" badWriteEnv keyedState stopRequest).effects.head? =
      some (AgentEffect.fileWrite (gcloudKeyPath "/home")
        badWriteEnv.gcloudKeyWriteOk)) ∧
    ((Transfer "/home" badWriteEnv keyedState stopRequest).response =
      Except.error "write gcloud-key.json" ∧
     (Transfer "/home" badWriteEnv keyedState stopRequest).effects =
      [AgentEffect.fileWrite (gcloudKeyPath "/home") false] ∧
     (Transfer "/home" badWriteEnv keyedState stopRequest).effects.any
        isSpawnEffect = false ∧
     (Transfer "/home" badWriteEnv keyedState stopRequest).effects.any
        isSigtermEffect = false ∧
     (Transfer "/home" badWriteEnv keyedState stopRequest).effects.any
        isCloseLogEffect = false) :=
  ⟨(gcloud_key_written_before_operation "/home" badWriteEnv keyedState
      stopRequest (by decide)).1,
   (gcloud_key_written_before_operation "/home" badWriteEnv keyedState
      stopRequest (by decide)).2 rfl⟩

/-- C1: for each phase (write or read) with total operation count `T` and
any worker count `W ≥ 1`, the generator sends exactly `T` operations into
the request queue before closing it, and however the contents of the closed queue
are split among the workers (each operation consumed exactly once,
which is what the channel guarantees), the workers emit one Outcome each
and the aggregator receives exactly `T` Outcomes before the driver closes
the results stream — none dropped, none duplicated, for any `W`. -/
theorem phase_generates_and_aggregates_total (cfg : Config) (vals : Values)
    (key : String) (phase : Phase) (W : Nat) (hW : 1 ≤ W)
    (exec : Req → Outcome) (parts : List (List Req))
    (hparts : parts.length = W)
    (hperm : parts.flatten.Perm (generatedOps cfg vals key phase)) :
    (generatedOps cfg vals key phase).length = cfg.step2.totalRequests ∧
    aggregatorReceived (parts.map (doHandler exec)) = cfg.step2.totalRequests := by
  have hlen : (generatedOps cfg vals key phase).length = cfg.step2.totalRequests := by
    cases phase <;>
      simp [generatedOps, generateWrites, generateReads]
  refine ⟨hlen, ?_⟩
  have h1 : aggregatorReceived (parts.map (doHandler exec)) = (parts.map List.length).sum := by
    unfold aggregatorReceived doHandler
    rw [List.map_map]
    congr 1
    apply List.map_congr_left
    intro l _
    simp
  rw [h1, ← List.length_flatten, hperm.length_eq, hlen]

/-- C1 witness: three reads split across two workers yield exactly three
aggregated Outcomes. -/
theorem phase_generates_and_aggregates_total_witness :
    (generatedOps sampleConfig sampleValues "kk" Phase.readPhase).length = 3 ∧
    aggregatorReceived
      ([[readRequest sampleConfig "kk", readRequest sampleConfig "kk"],
        [readRequest sampleConfig "kk"]].map
        (doHandler (fun _ => { errText := "", durationNs := 1 }))) = 3 :=
  phase_generates_and_aggregates_total sampleConfig sampleValues "kk"
    Phase.readPhase 2 (by decide) (fun _ => { errText := "", durationNs := 1 })
    [[readRequest sampleConfig "kk", readRequest sampleConfig "kk"],
     [readRequest sampleConfig "kk"]] rfl (by decide)

/-- C9 counterexample: the claim says the compaction task triggered during
etcdv3 write generation is an untracked detached task with no join before
phase completion; but on a concrete etcdv3 configuration with compaction
cycle 1 and one operation, the single spawned compaction task is recorded
in the wait group of the driver (`wg.Add(1)` before the spawn, `defer wg.Done()`
in its body), so no spawned compaction task is untracked. -/
theorem compaction_untracked_counterexample :
    compactionTasks compactConfig =
      [{ opIndex := 0, wgAddBeforeSpawn := true, wgDoneOnExit := true }] ∧
    ¬ ∃ tsk ∈ compactionTasks compactConfig,
        (tsk.wgAddBeforeSpawn = false ∨ tsk.wgDoneOnExit = false) := by
  constructor
  · decide
  · decide

/-- C9 (amended): every compaction task triggered at an index divisible by
the configured cycle during etcdv3 write generation is registered in the
wait group of the driver before it is spawned and signals the wait group on
exit, so the wait-for-all barrier of the driver does not complete while a
triggered compaction task is still running. -/
theorem compaction_tasks_are_tracked (cfg : Config) (tsk : SpawnedTask)
    (hmem : tsk ∈ compactionTasks cfg) :
    tsk.wgAddBeforeSpawn = true ∧ tsk.wgDoneOnExit = true := by
  unfold compactionTasks at hmem
  rw [List.mem_filterMap] at hmem
  obtain ⟨i, _, hi⟩ := hmem
  by_cases hc : cfg.database = Database.etcdv3 ∧ 0 < cfg.step2.etcdv3CompactionCycle ∧
      i % cfg.step2.etcdv3CompactionCycle = 0
  · rw [if_pos hc] at hi
    cases hi
    exact ⟨rfl, rfl⟩
  · rw [if_neg hc] at hi
    cases hi

/-- C9 witness: the compaction task spawned at index 0 of the concrete
etcdv3 configuration is wait-group tracked. -/
theorem compaction_tasks_are_tracked_witness :
    ({ opIndex := 0, wgAddBeforeSpawn := true, wgDoneOnExit := true } :
        SpawnedTask).wgAddBeforeSpawn = true ∧
    ({ opIndex := 0, wgAddBeforeSpawn := true, wgDoneOnExit := true } :
        SpawnedTask).wgDoneOnExit = true :=
  compaction_tasks_are_tracked compactConfig
    { opIndex := 0, wgAddBeforeSpawn := true, wgDoneOnExit := true } (by decide)

theorem startsWithSep_cons_of_ne (c : Char) (l : List Char) (hc : c ≠ '_') :
    startsWithSep (c :: l) = false := by
  cases l with
  | nil => rfl
  | cons c2 l2 =>
    cases l2 with
    | nil => rfl
    | cons c3 l3 => simp [startsWithSep, hc]

theorem splitPeersGo_nil (fuel : Nat) (acc : List Char) :
    splitPeersGo fuel acc [] = [acc] := by
  cases fuel with
  | zero => rfl
  | succ f => simp [splitPeersGo, startsWithSep]

theorem splitPeersGo_skip (s : List Char) (hs : ∀ c ∈ s, c ≠ '_') :
    ∀ fuel acc t, s.length + t.length ≤ fuel →
      splitPeersGo fuel acc (s ++ t) =
        splitPeersGo (fuel - s.length) (acc ++ s) t := by
  induction s with
  | nil =>
    intro fuel acc t _
    simp
  | cons c cs ih =>
    intro fuel acc t hfuel
    have hc : c ≠ '_' := hs c (List.mem_cons_self c cs)
    cases fuel with
    | zero => simp at hfuel
    | succ f =>
      have hsep : startsWithSep (c :: (cs ++ t)) = false :=
        startsWithSep_cons_of_ne c (cs ++ t) hc
      have hrec := ih (fun x hx => hs x (List.mem_cons_of_mem c hx)) f (acc ++ [c]) t
        (by simp at hfuel ⊢; omega)
      simp only [List.cons_append, splitPeersGo, hsep, Bool.false_eq_true, if_false]
      rw [hrec]
      have h2 : acc ++ [c] ++ cs = acc ++ (c :: cs) := by simp
      rw [h2]
      congr 1
      simp only [List.length_cons]
      omega

theorem splitPeersGo_joinPeers (l : List (List Char)) :
    (∀ s ∈ l, ∀ c ∈ s, c ≠ '_') → l ≠ [] →
      ∀ fuel acc, (joinPeers l).length ≤ fuel →
        splitPeersGo fuel acc (joinPeers l) = (acc ++ l.headD []) :: l.tail := by
  induction l with
  | nil => intro _ hne; exact absurd rfl hne
  | cons x rest ih =>
    intro hch _ fuel acc hfuel
    cases rest with
    | nil =>
      have hx : ∀ c ∈ x, c ≠ '_' := hch x (List.mem_cons_self x [])
      have hj : joinPeers [x] = x := rfl
      rw [hj] at hfuel ⊢
      have := splitPeersGo_skip x hx fuel acc [] (by simpa using hfuel)
      rw [show x = x ++ [] by simp] at this
      simp only [List.append_nil] at this
      rw [this, splitPeersGo_nil]
      simp
    | cons y rest2 =>
      have hx : ∀ c ∈ x, c ≠ '_' := hch x (List.mem_cons_self x (y :: rest2))
      have hj : joinPeers (x :: y :: rest2) =
          x ++ '_' :: '_' :: '_' :: joinPeers (y :: rest2) := rfl
      rw [hj] at hfuel ⊢
      have hlen : x.length + ('_' :: '_' :: '_' :: joinPeers (y :: rest2)).length ≤ fuel := by
        simpa using hfuel
      rw [splitPeersGo_skip x hx fuel acc _ hlen]
      obtain ⟨f2, hf2⟩ : ∃ f2, fuel - x.length = f2 + 1 := by
        refine ⟨fuel - x.length - 1, ?_⟩
        simp at hfuel
        omega
      have hf2ge : (joinPeers (y :: rest2)).length ≤ f2 := by
        simp at hfuel
        omega
      rw [hf2]
      have hsep : startsWithSep ('_' :: '_' :: '_' :: joinPeers (y :: rest2)) = true := by
        simp [startsWithSep]
      simp only [splitPeersGo, hsep, if_true]
      have hdrop : ('_' :: '_' :: '_' :: joinPeers (y :: rest2)).drop 3 =
          joinPeers (y :: rest2) := rfl
      rw [hdrop, ih (fun s hsm => hch s (List.mem_cons_of_mem x hsm))
        (by simp) f2 [] hf2ge]
      simp

/-- C8 counterexample: the claim quantifies over every list of peer strings
none of which contains the substring made of three underscores; the list
whose elements spell a-underscore and b satisfies that, yet joining with
the delimiter and splitting back yields a different list, because the
trailing underscore of the element merges with the delimiter. -/
theorem peer_list_roundtrip_counterexample :
    splitPeers (joinPeers [['a', '_'], ['b']]) ≠ [['a', '_'], ['b']] := by
  decide

/-- C8 (amended): for every nonempty list of peer IP strings none of which
contains the underscore character (true of IP addresses), joining with the
three-underscore delimiter on the controller and splitting on the agent
returns exactly the original list, same elements in the same order. -/
theorem peer_list_roundtrip (l : List (List Char)) (hne : l ≠ [])
    (hch : ∀ s ∈ l, ∀ c ∈ s, c ≠ '_') :
    splitPeers (joinPeers l) = l := by
  unfold splitPeers
  rw [splitPeersGo_joinPeers l hch hne (joinPeers l).length [] (Nat.le_refl _)]
  cases l with
  | nil => exact absurd rfl hne
  | cons x rest => simp

/-- C8 witness: two concrete IP-like strings survive the round trip. -/
theorem peer_list_roundtrip_witness :
    splitPeers (joinPeers [['1', '0', '.', '0', '.', '0', '.', '1'],
      ['1', '0', '.', '0', '.', '0', '.', '2']]) =
      [['1', '0', '.', '0', '.', '0', '.', '1'],
       ['1', '0', '.', '0', '.', '0', '.', '2']] :=
  peer_list_roundtrip _ (by decide) (by decide)

theorem digitVal_decChar (d : Nat) (hd : d < 10) : digitVal (decChar d) = d := by
  interval_cases d <;> decide

theorem decChar_lt_decChar (d1 d2 : Nat) (h12 : d1 < d2) (h2 : d2 < 10) :
    decChar d1 < decChar d2 := by
  interval_cases d2 <;> interval_cases d1 <;> decide

theorem ofDigitsChars_nil : ofDigitsChars [] = 0 := rfl

theorem ofDigitsChars_shift (l : List Char) :
    ∀ acc, l.foldl (fun a c => 10 * a + digitVal c) acc =
      acc * 10 ^ l.length + ofDigitsChars l := by
  induction l with
  | nil => intro acc; simp [ofDigitsChars]
  | cons c t ih =>
    intro acc
    have h0 : ofDigitsChars (c :: t) = digitVal c * 10 ^ t.length + ofDigitsChars t := by
      unfold ofDigitsChars
      simp only [List.foldl_cons]
      rw [show 10 * 0 + digitVal c = digitVal c by omega, ih (digitVal c)]
      rfl
    simp only [List.foldl_cons, List.length_cons]
    rw [ih (10 * acc + digitVal c), h0]
    ring

theorem ofDigitsChars_cons (c : Char) (t : List Char) :
    ofDigitsChars (c :: t) = digitVal c * 10 ^ t.length + ofDigitsChars t := by
  unfold ofDigitsChars
  simp only [List.foldl_cons]
  rw [show 10 * 0 + digitVal c = digitVal c by omega]
  exact ofDigitsChars_shift t (digitVal c)

theorem ofDigitsChars_append_singleton (l : List Char) (c : Char) :
    ofDigitsChars (l ++ [c]) = 10 * ofDigitsChars l + digitVal c := by
  unfold ofDigitsChars
  rw [List.foldl_append]
  rfl

theorem ofDigitsChars_lt_pow (l : List Char)
    (hd : ∀ c ∈ l, ∃ d, d < 10 ∧ c = decChar d) :
    ofDigitsChars l < 10 ^ l.length := by
  induction l with
  | nil => simp [ofDigitsChars]
  | cons c t ih =>
    obtain ⟨d, hd10, hc⟩ := hd c (List.mem_cons_self c t)
    have hv : digitVal c ≤ 9 := by
      rw [hc, digitVal_decChar d hd10]
      omega
    have ht := ih (fun x hx => hd x (List.mem_cons_of_mem c hx))
    rw [ofDigitsChars_cons]
    simp only [List.length_cons]
    calc digitVal c * 10 ^ t.length + ofDigitsChars t
        < digitVal c * 10 ^ t.length + 10 ^ t.length := by omega
      _ = (digitVal c + 1) * 10 ^ t.length := by ring
      _ ≤ 10 * 10 ^ t.length := Nat.mul_le_mul_right _ (by omega)
      _ = 10 ^ (t.length + 1) := by ring

theorem ofDigitsChars_replicate_zero_append (k : Nat) (l : List Char) :
    ofDigitsChars (List.replicate k (decChar 0) ++ l) = ofDigitsChars l := by
  unfold ofDigitsChars
  rw [List.foldl_append]
  have hz : List.foldl (fun a c => 10 * a + digitVal c) 0 (List.replicate k (decChar 0)) = 0 := by
    induction k with
    | zero => rfl
    | succ m ih => simpa [List.replicate_succ] using ih
  rw [hz]

theorem ofDigitsChars_decDigitsGo :
    ∀ fuel n, n ≤ fuel → ofDigitsChars (decDigitsGo n fuel) = n := by
  intro fuel
  induction fuel with
  | zero =>
    intro n hn
    have : n = 0 := by omega
    subst this
    rfl
  | succ f ih =>
    intro n hn
    by_cases h0 : n = 0
    · subst h0; rfl
    · have hdiv : n / 10 ≤ f := by
        have hlt : n / 10 < n := Nat.div_lt_self (Nat.pos_of_ne_zero h0) (by omega)
        omega
      simp only [decDigitsGo, h0, if_false]
      rw [ofDigitsChars_append_singleton, ih (n / 10) hdiv,
        digitVal_decChar (n % 10) (Nat.mod_lt n (by omega))]
      omega

theorem decDigitsGo_digits :
    ∀ fuel n c, c ∈ decDigitsGo n fuel → ∃ d, d < 10 ∧ c = decChar d := by
  intro fuel
  induction fuel with
  | zero => intro n c hc; simp [decDigitsGo] at hc
  | succ f ih =>
    intro n c hc
    by_cases h0 : n = 0
    · subst h0; simp [decDigitsGo] at hc
    · simp only [decDigitsGo, h0, if_false, List.mem_append, List.mem_singleton] at hc
      cases hc with
      | inl h => exact ih (n / 10) c h
      | inr h => exact ⟨n % 10, Nat.mod_lt n (by omega), h⟩

theorem decDigitsGo_length :
    ∀ fuel n k, n ≤ fuel → n < 10 ^ k → (decDigitsGo n fuel).length ≤ k := by
  intro fuel
  induction fuel with
  | zero =>
    intro n k hn _
    have : n = 0 := by omega
    subst this
    simp [decDigitsGo]
  | succ f ih =>
    intro n k hn hk
    by_cases h0 : n = 0
    · subst h0; simp [decDigitsGo]
    · cases k with
      | zero =>
        simp only [pow_zero, Nat.lt_one_iff] at hk
        exact absurd hk h0
      | succ k2 =>
        have hdiv : n / 10 ≤ f := by
          have hlt : n / 10 < n := Nat.div_lt_self (Nat.pos_of_ne_zero h0) (by omega)
          omega
        have hdivk : n / 10 < 10 ^ k2 := by
          rw [Nat.div_lt_iff_lt_mul (by omega)]
          calc n < 10 ^ (k2 + 1) := hk
            _ = 10 ^ k2 * 10 := by ring
        have := ih (n / 10) k2 hdiv hdivk
        simp only [decDigitsGo, h0, if_false, List.length_append, List.length_singleton]
        omega

theorem ofDigitsChars_decimalDigits (n : Nat) :
    ofDigitsChars (decimalDigits n) = n := by
  by_cases h0 : n = 0
  · subst h0; rfl
  · simp only [decimalDigits, h0, if_false]
    exact ofDigitsChars_decDigitsGo n n (Nat.le_refl n)

theorem decimalDigits_digits (n : Nat) (c : Char) (hc : c ∈ decimalDigits n) :
    ∃ d, d < 10 ∧ c = decChar d := by
  by_cases h0 : n = 0
  · subst h0
    simp [decimalDigits] at hc
    exact ⟨0, by omega, hc⟩
  · simp only [decimalDigits, h0, if_false] at hc
    exact decDigitsGo_digits n n c hc

theorem decimalDigits_length_le (n k : Nat) (hk1 : 1 ≤ k) (hn : n < 10 ^ k) :
    (decimalDigits n).length ≤ k := by
  by_cases h0 : n = 0
  · subst h0; simpa [decimalDigits] using hk1
  · simp only [decimalDigits, h0, if_false]
    exact decDigitsGo_length n n k (Nat.le_refl n) hn

theorem sequentialKey_data (size n : Nat) :
    (sequentialKey size n).data =
      List.replicate (size - (decimalDigits n).length) (decChar 0) ++ decimalDigits n := rfl

theorem sequentialKey_length (size n : Nat) (hk1 : 1 ≤ size) (hn : n < 10 ^ size) :
    (sequentialKey size n).length = size := by
  have hle := decimalDigits_length_le n size hk1 hn
  show (sequentialKey size n).data.length = size
  rw [sequentialKey_data]
  simp only [List.length_append, List.length_replicate]
  omega

theorem sequentialKey_val (size n : Nat) :
    ofDigitsChars (sequentialKey size n).data = n := by
  rw [sequentialKey_data, ofDigitsChars_replicate_zero_append]
  exact ofDigitsChars_decimalDigits n

theorem sequentialKey_data_digits (size n : Nat) (c : Char)
    (hc : c ∈ (sequentialKey size n).data) : ∃ d, d < 10 ∧ c = decChar d := by
  rw [sequentialKey_data] at hc
  rw [List.mem_append] at hc
  cases hc with
  | inl h =>
    have := List.eq_of_mem_replicate h
    exact ⟨0, by omega, this⟩
  | inr h => exact decimalDigits_digits n c h

theorem digit_list_lt_of_val_lt :
    ∀ l1 l2 : List Char, l1.length = l2.length →
      (∀ c ∈ l1, ∃ d, d < 10 ∧ c = decChar d) →
      (∀ c ∈ l2, ∃ d, d < 10 ∧ c = decChar d) →
      ofDigitsChars l1 < ofDigitsChars l2 → l1 < l2 := by
  intro l1
  induction l1 with
  | nil =>
    intro l2 hlen _ _ hv
    cases l2 with
    | nil => simp [ofDigitsChars] at hv
    | cons c t => simp at hlen
  | cons c1 t1 ih =>
    intro l2 hlen h1 h2 hv
    cases l2 with
    | nil => simp at hlen
    | cons c2 t2 =>
      simp only [List.length_cons, Nat.add_right_cancel_iff] at hlen
      obtain ⟨d1, hd1, hc1⟩ := h1 c1 (List.mem_cons_self c1 t1)
      obtain ⟨d2, hd2, hc2⟩ := h2 c2 (List.mem_cons_self c2 t2)
      rcases Nat.lt_trichotomy d1 d2 with hlt | heq | hgt
      · have : c1 < c2 := by
          rw [hc1, hc2]
          exact decChar_lt_decChar d1 d2 hlt hd2
        exact List.Lex.rel this
      · have hceq : c1 = c2 := by rw [hc1, hc2, heq]
        subst hceq
        have htv : ofDigitsChars t1 < ofDigitsChars t2 := by
          rw [ofDigitsChars_cons, ofDigitsChars_cons, hlen] at hv
          omega
        have := ih t2 hlen (fun x hx => h1 x (List.mem_cons_of_mem c1 hx))
          (fun x hx => h2 x (List.mem_cons_of_mem c1 hx)) htv
        exact List.Lex.cons this
      · exfalso
        have hb2 : ofDigitsChars t2 < 10 ^ t2.length :=
          ofDigitsChars_lt_pow t2 (fun x hx => h2 x (List.mem_cons_of_mem c2 hx))
        have hv1 : digitVal c1 = d1 := by rw [hc1]; exact digitVal_decChar d1 hd1
        have hv2 : digitVal c2 = d2 := by rw [hc2]; exact digitVal_decChar d2 hd2
        rw [ofDigitsChars_cons, ofDigitsChars_cons, hlen, hv1, hv2] at hv
        have hstep : (d2 + 1) * 10 ^ t2.length ≤ d1 * 10 ^ t2.length :=
          Nat.mul_le_mul_right _ (by omega)
        have : d2 * 10 ^ t2.length + ofDigitsChars t2 < (d2 + 1) * 10 ^ t2.length := by
          have : (d2 + 1) * 10 ^ t2.length = d2 * 10 ^ t2.length + 10 ^ t2.length := by ring
          omega
        omega

theorem sequentialKey_strict_mono (size i j : Nat) (hij : i < j)
    (hj : j < 10 ^ size) : sequentialKey size i < sequentialKey size j := by
  have hsize : 1 ≤ size := by
    by_contra hs
    have : size = 0 := by omega
    subst this
    simp only [pow_zero, Nat.lt_one_iff] at hj
    omega
  have hi : i < 10 ^ size := Nat.lt_trans hij hj
  rw [String.lt_iff_toList_lt]
  have hlen : (sequentialKey size i).data.length = (sequentialKey size j).data.length := by
    have h1 := sequentialKey_length size i hsize hi
    have h2 := sequentialKey_length size j hsize hj
    show (sequentialKey size i).length = (sequentialKey size j).length
    rw [h1, h2]
  have hv : ofDigitsChars (sequentialKey size i).data <
      ofDigitsChars (sequentialKey size j).data := by
    rw [sequentialKey_val, sequentialKey_val]
    exact hij
  exact digit_list_lt_of_val_lt (sequentialKey size i).data (sequentialKey size j).data
    hlen (sequentialKey_data_digits size i) (sequentialKey_data_digits size j) hv

/-- C7: in the write generator, when same-key mode is off the key for index
`i` is the zero-padded sequential key of the configured key size, the key
sequence is strictly increasing in `i` (indices within the key width), and
the keys have exactly the configured size; when same-key mode is on every
operation carries the identical fixed key of the configured size. -/
theorem write_key_sequence (cfg : Config) (i j : Nat) (hij : i < j)
    (hj : j < 10 ^ cfg.step2.keySize) :
    (cfg.step2.sameKeyMode = false →
      writeKey cfg i = sequentialKey cfg.step2.keySize i ∧
      (writeKey cfg i).length = cfg.step2.keySize ∧
      writeKey cfg i < writeKey cfg j) ∧
    (cfg.step2.sameKeyMode = true →
      writeKey cfg i = sameKey cfg.step2.keySize ∧
      writeKey cfg j = writeKey cfg i ∧
      (writeKey cfg i).length = cfg.step2.keySize) := by
  constructor
  · intro hmode
    have hsize : 1 ≤ cfg.step2.keySize := by
      by_contra hs
      have h0 : cfg.step2.keySize = 0 := by omega
      rw [h0] at hj
      simp only [pow_zero, Nat.lt_one_iff] at hj
      omega
    have hi : i < 10 ^ cfg.step2.keySize := Nat.lt_trans hij hj
    refine ⟨by simp [writeKey, hmode], ?_, ?_⟩
    · simp only [writeKey, hmode, Bool.false_eq_true, if_false]
      exact sequentialKey_length cfg.step2.keySize i hsize hi
    · simp only [writeKey, hmode, Bool.false_eq_true, if_false]
      exact sequentialKey_strict_mono cfg.step2.keySize i j hij hj
  · intro hmode
    refine ⟨by simp [writeKey, hmode], by simp [writeKey, hmode], ?_⟩
    simp only [writeKey, hmode, if_true]
    show (sameKey cfg.step2.keySize).data.length = cfg.step2.keySize
    simp [sameKey]

/-- C7 witness: with key size 4, the keys at indices 1 and 12 are the
zero-padded strings in order, and in same-key mode both indices yield the
identical fixed key. -/
theorem write_key_sequence_witness :
    (writeKey sampleConfig 1 = sequentialKey 4 1 ∧
      (writeKey sampleConfig 1).length = 4 ∧
      writeKey sampleConfig 1 < writeKey sampleConfig 12) ∧
    (writeKey sameKeyConfig 1 = sameKey 4 ∧
      writeKey sameKeyConfig 12 = writeKey sameKeyConfig 1 ∧
      (writeKey sameKeyConfig 1).length = 4) :=
  ⟨(write_key_sequence sampleConfig 1 12 (by decide) (by decide)).1 rfl,
   (write_key_sequence sameKeyConfig 1 12 (by decide) (by decide)).2 rfl⟩

end Dbtester
